import Mathlib

/-!
Verification of the gesture-to-stroke pipeline of the hand-gesture whiteboard
(`src/App.js`).  The per-frame callback `handleMediaPipeResults`, the smoothing
filter `applySmoothing`, the canvas routines `drawOnCanvas`, `drawCursor`,
`clearDrawingCanvas` and the debounced stop timer are embedded shallowly:

* JS numbers are modelled as exact rationals (`ℚ`);
* the mutable refs of the React component become fields of `AppState`;
* the two canvases become lists of drawing commands (the ink layer is the
  list of commits since the last clear; the cursor layer is rebuilt per frame);
* the single-shot `setTimeout(…, 30)` becomes an absolute deadline
  (`pendingStop`) fired by `fireDue` before a later frame is processed;
* the null-canvas early returns (transient startup conditions) are outside the
  modelled claims, so the embedding assumes the surfaces exist;
* `lastDistanceRef` is written but never read by the source, so it is omitted.

The source computes `Math.sqrt(dx^2+dy^2) < 40`; the embedding branches on the
square `dx^2+dy^2 < 1600`, and the equivalence with the comparison of the
real square root against 40 is proved alongside the gesture-threshold claim.
-/

namespace HandWhiteboard

/-- A 2D point with exact rational coordinates (models a JS `{x, y}` object). -/
structure Point where
  x : ℚ
  y : ℚ
  deriving DecidableEq, Repr

/-- One detected hand: landmarks in normalized coordinates, index-addressable
(wrist = 0, thumb tip = 4, index tip = 8, fingertips at 8, 12, 16, 20; the
source only reads these indices of its 21-element array, so the hand is
modelled as a total function on indices).  The unused `z` component is
omitted. -/
def Landmarks : Type := ℕ → Point

/-- State of the smoothing filter: `smoothingPointsRef`, `lastSmoothedPositionRef`
and `velocityRef` of the component. -/
structure SmoothState where
  buffer : List Point
  lastSmoothed : Option Point
  velocity : Point
  deriving DecidableEq, Repr

def white : String := "#ffffff"
def black : String := "#000000"
def cursorFillEraser : String := "rgba(255, 255, 255, 0.3)"
def cursorFillNormal : String := "rgba(200, 200, 200, 0.3)"

/-- The externally configured drawing settings, read each frame. -/
structure Settings where
  brushSize : ℚ
  brushColor : String
  eraserMode : Bool
  smoothingLevel : ℕ
  deriving DecidableEq, Repr

/-- A commit to the persistent ink layer. `erase` records the
`destination-out` compositing mode of eraser strokes. -/
inductive InkCmd where
  | dot (center : Point) (radius : ℚ) (color : String) (erase : Bool)
  | line (a b : Point) (width : ℚ) (color : String) (erase : Bool)
  deriving DecidableEq, Repr

def InkCmd.isDot : InkCmd → Bool
  | .dot _ _ _ _ => true
  | .line _ _ _ _ _ => false

def InkCmd.isLine : InkCmd → Bool
  | .dot _ _ _ _ => false
  | .line _ _ _ _ _ => true

/-- A shape on the ephemeral cursor layer (rebuilt from scratch each frame). -/
inductive CursorCmd where
  | ring (center : Point) (radius : ℚ) (fill : String)
  | centerDot (center : Point) (radius : ℚ) (fill : String)
  deriving DecidableEq, Repr

/-- All cross-frame mutable state of the component: the drawing flag, the
stroke-session refs, the smoothing refs, the pending stop-timer deadline and
the two canvas layers. -/
structure AppState where
  isDrawing : Bool
  lastPosition : Option Point
  smooth : SmoothState
  isNewStroke : Bool
  pendingStop : Option ℚ
  ink : List InkCmd
  cursor : List CursorCmd
  deriving DecidableEq, Repr

/-- The component's initial state (refs as initialized in `App.js`). -/
def initState : AppState :=
  { isDrawing := false
    lastPosition := none
    smooth := { buffer := [], lastSmoothed := none, velocity := ⟨0, 0⟩ }
    isNewStroke := true
    pendingStop := none
    ink := []
    cursor := [] }

/-- Source function `applySmoothing(x, y)`: push the raw point, evict the oldest
when the buffer outgrows `smoothingLevel`, average, then apply velocity
damping when a previous smoothed output exists.  Returns the smoothed point
and the updated filter state. -/
def applySmoothing (level : ℕ) (x y : ℚ) (st : SmoothState) : Point × SmoothState :=
  let buf0 := st.buffer ++ [⟨x, y⟩]
  let buf := if level < buf0.length then buf0.tail else buf0
  let avgX := (buf.foldl (fun s p => s + p.x) 0) / (buf.length : ℚ)
  let avgY := (buf.foldl (fun s p => s + p.y) 0) / (buf.length : ℚ)
  match st.lastSmoothed with
  | some last =>
      let vx := (avgX - last.x) * 0.3 + st.velocity.x * 0.7
      let vy := (avgY - last.y) * 0.3 + st.velocity.y * 0.7
      let sx := avgX + vx * 0.2
      let sy := avgY + vy * 0.2
      (⟨sx, sy⟩, { buffer := buf, lastSmoothed := some ⟨sx, sy⟩, velocity := ⟨vx, vy⟩ })
  | none =>
      (⟨avgX, avgY⟩, { buffer := buf, lastSmoothed := some ⟨avgX, avgY⟩, velocity := st.velocity })

/-- Effective line width: eraser uses a fixed 20px width. -/
def strokeWidth (st : Settings) : ℚ := if st.eraserMode then 20 else st.brushSize

/-- Effective dot radius: 10px for the eraser, half the brush size otherwise. -/
def dotRadius (st : Settings) : ℚ := if st.eraserMode then 10 else st.brushSize / 2

/-- Effective stroke/fill color. -/
def strokeColor (st : Settings) : String := if st.eraserMode then black else st.brushColor

/-- Source function `drawOnCanvas(x, y)`: smooth the raw point, then commit a dot
(new stroke, or the defensive fallback) or a line segment from the last
committed position. -/
def drawOnCanvas (st : Settings) (x y : ℚ) (s : AppState) : AppState :=
  let r := applySmoothing st.smoothingLevel x y s.smooth
  let p := r.1
  let s1 : AppState := { s with smooth := r.2 }
  let s2 : AppState :=
    if s1.isNewStroke then
      { s1 with ink := s1.ink ++ [.dot p (dotRadius st) (strokeColor st) st.eraserMode]
                isNewStroke := false }
    else
      match s1.lastPosition with
      | some lp =>
          if s1.isDrawing then
            { s1 with ink := s1.ink ++ [.line lp p (strokeWidth st) (strokeColor st) st.eraserMode] }
          else
            { s1 with ink := s1.ink ++ [.dot p (dotRadius st) (strokeColor st) st.eraserMode]
                      isNewStroke := false }
      | none =>
          { s1 with ink := s1.ink ++ [.dot p (dotRadius st) (strokeColor st) st.eraserMode]
                    isNewStroke := false }
  { s2 with lastPosition := some p }

/-- Source function `drawCursor(x, y, isDrawing)`: the cursor layer is cleared
and, only when not drawing, repainted with a translucent ring (radius 20 in
eraser mode, 15 otherwise) plus a small solid center dot. -/
def drawCursor (st : Settings) (x y : ℚ) (dr : Bool) : List CursorCmd :=
  if dr then []
  else
    [ .ring ⟨x, y⟩ (if st.eraserMode then 20 else 15)
        (if st.eraserMode then cursorFillEraser else cursorFillNormal)
      , .centerDot ⟨x, y⟩ 3 white ]

/-- Source function `clearDrawingCanvas()`: wipe the ink layer and reset
`lastPosition`, `isDrawing`, the smoothing buffer and the new-stroke flag.
It touches neither `lastSmoothed`, `velocity`, the pending stop timer, nor
the cursor layer. -/
def clearDrawingCanvas (s : AppState) : AppState :=
  { s with ink := []
           lastPosition := none
           isDrawing := false
           smooth := { s.smooth with buffer := [] }
           isNewStroke := true }

/-- Body of the `setTimeout` callback scheduled when the pinch opens while
drawing: stop drawing and fully reset the smoothing filter.  The timer is
single-shot, so the spent handle is dropped. -/
def stopCallback (s : AppState) : AppState :=
  { s with lastPosition := none
           isDrawing := false
           smooth := { buffer := [], lastSmoothed := none, velocity := ⟨0, 0⟩ }
           isNewStroke := true
           pendingStop := none }

/-- Fire the pending stop timer if its deadline has passed by time `t`
(frames and the timer callback share one event queue, so a due timer runs
before a later frame's callback). -/
def fireDue (t : ℚ) (s : AppState) : AppState :=
  match s.pendingStop with
  | some d => if d ≤ t then stopCallback s else s
  | none => s

/-- The `Idle → Drawing` branch of the frame handler: cancel any pending stop
timer (`clearTimeout`), clear `lastPosition`, raise the drawing flag, reset
the smoothing *buffer* (only) and mark a new stroke. -/
def startTransition (s : AppState) : AppState :=
  { s with pendingStop := none
           lastPosition := none
           isDrawing := true
           smooth := { s.smooth with buffer := [] }
           isNewStroke := true }

/-- Squared pinch distance in canvas pixel space: thumb tip (4) and index tip
(8) are mirrored/scaled by `px = (1 - lm.x) * w`, `py = lm.y * h`.  The source
compares `Math.sqrt` of this value against 40. -/
def pinchDistSq (w h : ℚ) (lm : Landmarks) : ℚ :=
  let ix := (1 - (lm 8).x) * w
  let iy := (lm 8).y * h
  let tx := (1 - (lm 4).x) * w
  let ty := (lm 4).y * h
  (tx - ix) ^ 2 + (ty - iy) ^ 2

/-- The pinch distance itself (`Math.sqrt(...)` of the source), as a real. -/
noncomputable def pinchDistance (w h : ℚ) (lm : Landmarks) : ℝ :=
  Real.sqrt ((pinchDistSq w h lm : ℚ) : ℝ)

/-- The fingertip indices checked by the fist loop (`for i = 8; i <= 20; i += 4`). -/
def tipIdx : List ℕ := [8, 12, 16, 20]

/-- Fist classification of the source: true unless some fingertip lies strictly
above the wrist (`landmarks[i].y < landmarks[0].y`). -/
def isFist (lm : Landmarks) : Bool :=
  tipIdx.all (fun i => ! decide ((lm i).y < (lm 0).y))

/-- Mirrored pixel position of the index fingertip, the raw drawing input. -/
def rawPos (w h : ℚ) (lm : Landmarks) : ℚ × ℚ :=
  ((1 - (lm 8).x) * w, (lm 8).y * h)

/-- One iteration of the per-hand body of `handleMediaPipeResults`, at event
time `t` (in ms).  `w`, `h` are the drawing canvas dimensions (1000 × 700 in
the component's markup).  The branch on `pinchDistSq < 1600` embeds the
source's `distance < 40`. -/
def processHand (st : Settings) (w h : ℚ) (lm : Landmarks) (t : ℚ) (s : AppState) : AppState :=
  let x := (1 - (lm 8).x) * w
  let y := (lm 8).y * h
  let s1 := { s with cursor := drawCursor st x y s.isDrawing }
  let s2 :=
    if pinchDistSq w h lm < 1600 then
      let s' := if s1.isDrawing then s1 else startTransition s1
      if s'.isDrawing then drawOnCanvas st x y s' else s'
    else
      if s1.isDrawing then { s1 with pendingStop := some (t + 30) } else s1
  if isFist lm then clearDrawingCanvas s2 else s2

/-- Process a sequence of timed frames (single tracked hand per frame), firing
the stop timer whenever its deadline precedes a frame. -/
def runFrames (st : Settings) (w h : ℚ) (frames : List (ℚ × Landmarks)) (s : AppState) : AppState :=
  frames.foldl (fun s f => processHand st w h f.2 f.1 (fireDue f.1 s)) s

/-- The successive outputs of the smoothing filter on a list of raw inputs. -/
def smoothRun (level : ℕ) (ins : List (ℚ × ℚ)) (st : SmoothState) : List Point × SmoothState :=
  match ins with
  | [] => ([], st)
  | (x, y) :: rest =>
      let r := applySmoothing level x y st
      let rr := smoothRun level rest r.2
      (r.1 :: rr.1, rr.2)

/-- The line segments connecting consecutive points of a polyline. -/
def lineCmds (st : Settings) : List Point → List InkCmd
  | [] => []
  | [_] => []
  | a :: b :: rest =>
      .line a b (strokeWidth st) (strokeColor st) st.eraserMode :: lineCmds st (b :: rest)

/-- The ink commits of one uninterrupted stroke through the given smoothed
points: a dot at the first point, then consecutive line segments. -/
def strokeCmds (st : Settings) : List Point → List InkCmd
  | [] => []
  | p :: rest =>
      .dot p (dotRadius st) (strokeColor st) st.eraserMode :: lineCmds st (p :: rest)

/-- Arithmetic mean of a list of points, componentwise. -/
def meanPoint (l : List Point) : Point :=
  ⟨(l.map Point.x).sum / (l.length : ℚ), (l.map Point.y).sum / (l.length : ℚ)⟩

/-- The bounded-buffer append: the new point is appended and the oldest point
is evicted when the length exceeds the capacity. -/
def evict (level : ℕ) (l : List Point) : List Point :=
  if level < l.length then l.tail else l

/-- Modelled from the spec's §4.1 algorithm, to be compared with
`applySmoothing`: the raw point is appended (oldest evicted when the length
exceeds `smoothingLevel`), `avg` is the arithmetic mean of the buffered
points, the output is `avg` on the first sample, and otherwise
`avg + 0.2 * velocity` after the velocity update
`velocity = 0.3 * (avg - lastSmoothed) + 0.7 * velocity`; the output becomes
the new `lastSmoothed`. -/
def SmoothSpec (level : ℕ) (x y : ℚ) (st : SmoothState) (out : Point) (st' : SmoothState) : Prop :=
  st'.buffer = evict level (st.buffer ++ [⟨x, y⟩]) ∧
  st'.buffer.length ≤ level ∧
  (st.lastSmoothed = none → out = meanPoint st'.buffer ∧ st'.velocity = st.velocity) ∧
  (∀ last, st.lastSmoothed = some last →
      st'.velocity = ⟨0.3 * ((meanPoint st'.buffer).x - last.x) + 0.7 * st.velocity.x,
                      0.3 * ((meanPoint st'.buffer).y - last.y) + 0.7 * st.velocity.y⟩ ∧
      out = ⟨(meanPoint st'.buffer).x + 0.2 * st'.velocity.x,
             (meanPoint st'.buffer).y + 0.2 * st'.velocity.y⟩) ∧
  st'.lastSmoothed = some out

/-! ### Concrete inputs used by witnesses and counterexamples -/

/-- Default settings as initialized by the component
(`brushSize = 5`, white brush, no eraser, `smoothingLevel = 5`). -/
def defaultSettings : Settings :=
  { brushSize := 5, brushColor := white, eraserMode := false, smoothingLevel := 5 }

/-- A pinching hand (thumb tip = index tip), not a fist: index tip above wrist. -/
def lmPinch : Landmarks := fun i =>
  if i = 0 then ⟨1/2, 9/10⟩ else ⟨1/2, 1/5⟩

/-- A second pinching hand at a different position. -/
def lmPinch2 : Landmarks := fun i =>
  if i = 0 then ⟨1/2, 9/10⟩ else ⟨2/5, 1/5⟩

/-- An open hand: pinch distance 400px, fingertips above the wrist. -/
def lmOpen : Landmarks := fun i =>
  if i = 0 then ⟨1/2, 9/10⟩
  else if i = 4 then ⟨9/10, 1/5⟩
  else ⟨1/2, 1/5⟩

/-- A fist: every fingertip at or below the wrist (larger y).  Its pinch
distance is 0, so it is simultaneously a draw gesture. -/
def lmFist : Landmarks := fun i =>
  if i = 0 then ⟨1/2, 1/10⟩ else ⟨1/2, 1/2⟩

/-- A hand whose computed pinch distance is exactly 40 pixels on a
1000 × 700 canvas. -/
def lmBoundary : Landmarks := fun i =>
  if i = 0 then ⟨1/2, 9/10⟩
  else if i = 4 then ⟨23/50, 1/5⟩
  else ⟨1/2, 1/5⟩

/-! ### Helper lemmas -/

lemma foldl_add_comp (f : Point → ℚ) (l : List Point) (a : ℚ) :
    l.foldl (fun s p => s + f p) a = a + (l.map f).sum := by
  induction l generalizing a with
  | nil => simp
  | cons p rest ih => simp [ih, add_assoc]

lemma runFrames_cons (st : Settings) (w h : ℚ) (f : ℚ × Landmarks)
    (fs : List (ℚ × Landmarks)) (s : AppState) :
    runFrames st w h (f :: fs) s = runFrames st w h fs (processHand st w h f.2 f.1 (fireDue f.1 s)) :=
  rfl

lemma smoothRun_length (level : ℕ) (ins : List (ℚ × ℚ)) (st : SmoothState) :
    (smoothRun level ins st).1.length = ins.length := by
  induction ins generalizing st with
  | nil => simp [smoothRun]
  | cons p rest ih => cases p; simp [smoothRun, ih]

lemma lineCmds_counts (st : Settings) : ∀ ps : List Point,
    (lineCmds st ps).countP (fun c => c.isDot) = 0 ∧
    (lineCmds st ps).countP (fun c => c.isLine) = ps.length - 1
  | [] => by simp [lineCmds]
  | [a] => by simp [lineCmds]
  | a :: b :: rest => by
    have ih := lineCmds_counts st (b :: rest)
    simp [lineCmds, List.countP_cons, InkCmd.isDot, InkCmd.isLine] at ih ⊢
    exact ih

lemma applySmoothing_buffer (level : ℕ) (x y : ℚ) (st : SmoothState) :
    (applySmoothing level x y st).2.buffer = evict level (st.buffer ++ [⟨x, y⟩]) := by
  cases hls : st.lastSmoothed <;> simp [applySmoothing, evict, hls]

lemma evict_length_le (level : ℕ) (x y : ℚ) (l : List Point)
    (hcap : l.length ≤ level) :
    (evict level (l ++ [⟨x, y⟩])).length ≤ level := by
  unfold evict
  split_ifs with hc
  · rw [List.length_tail]
    simp at hc ⊢
    omega
  · simp at hc ⊢
    omega

/-! ### Claim theorems -/

/-- Claim C1: every `smooth(rawX, rawY)` call appends the raw point to the
bounded buffer (oldest evicted when the length exceeds `smoothingLevel`),
computes `avg` as the arithmetic mean of all buffered points, returns `avg`
when no previous smoothed output exists and otherwise `avg + 0.2 * velocity`
with the velocity first updated to `0.3 * (avg - lastSmoothed) + 0.7 *
velocity` componentwise, and stores the returned output as the new
`lastSmoothed`. -/
theorem applySmoothing_meets_spec (level : ℕ) (x y : ℚ) (st : SmoothState)
    (hcap : st.buffer.length ≤ level) :
    SmoothSpec level x y st (applySmoothing level x y st).1 (applySmoothing level x y st).2 := by
  refine ⟨applySmoothing_buffer level x y st, ?_, ?_, ?_, ?_⟩
  · rw [applySmoothing_buffer]
    exact evict_length_le level x y st.buffer hcap
  · intro hls
    rw [applySmoothing_buffer, ← applySmoothing_buffer level x y st]
    simp [applySmoothing, hls, meanPoint, foldl_add_comp]
  · intro last hls
    rw [applySmoothing_buffer, ← applySmoothing_buffer level x y st]
    simp [applySmoothing, hls, meanPoint, foldl_add_comp]
    constructor
    · constructor <;> ring
    · constructor <;> ring
  · cases hls : st.lastSmoothed <;> simp [applySmoothing, hls]

/-- Claim C1, witness: the characterization evaluated on a concrete filter
state with a previous smoothed output and a partially full buffer. -/
theorem applySmoothing_meets_spec_witness :
    (([⟨1, 1⟩, ⟨2, 2⟩] : List Point).length ≤ 2) ∧
    SmoothSpec 2 3 4 ⟨[⟨1, 1⟩, ⟨2, 2⟩], some ⟨1, 1⟩, ⟨1, 0⟩⟩
      (applySmoothing 2 3 4 ⟨[⟨1, 1⟩, ⟨2, 2⟩], some ⟨1, 1⟩, ⟨1, 0⟩⟩).1
      (applySmoothing 2 3 4 ⟨[⟨1, 1⟩, ⟨2, 2⟩], some ⟨1, 1⟩, ⟨1, 0⟩⟩).2 :=
  ⟨by norm_num, applySmoothing_meets_spec 2 3 4 ⟨[⟨1, 1⟩, ⟨2, 2⟩], some ⟨1, 1⟩, ⟨1, 0⟩⟩ (by norm_num)⟩

/-- Claim C2, counterexample: after a fist/clear during a stroke (a reachable
Idle state whose `lastSmoothed` and `velocity` are stale), the next pinch
frame performs the `Idle → Drawing` transition, yet the first smoothed output
of the new stroke is `(12473/25, 140)`, not the raw point `(500, 140)` — so
the stroke-start "reset" neither discards `lastSmoothed` nor zeroes the
velocity, and the very next `smooth(x, y)` does not return `(x, y)`. -/
theorem strokeStart_reset_cx :
    (clearDrawingCanvas (runFrames defaultSettings 1000 700
        [(0, lmPinch), (16, lmPinch2)] initState)).isDrawing = false ∧
    (clearDrawingCanvas (runFrames defaultSettings 1000 700
        [(0, lmPinch), (16, lmPinch2)] initState)).smooth.lastSmoothed = some ⟨553, 140⟩ ∧
    (clearDrawingCanvas (runFrames defaultSettings 1000 700
        [(0, lmPinch), (16, lmPinch2)] initState)).smooth.velocity = ⟨15, 0⟩ ∧
    (processHand defaultSettings 1000 700 lmPinch 32
      (clearDrawingCanvas (runFrames defaultSettings 1000 700
        [(0, lmPinch), (16, lmPinch2)] initState))).isDrawing = true ∧
    (processHand defaultSettings 1000 700 lmPinch 32
      (clearDrawingCanvas (runFrames defaultSettings 1000 700
        [(0, lmPinch), (16, lmPinch2)] initState))).ink
      = [.dot ⟨12473/25, 140⟩ (5/2) white false] ∧
    ((12473 : ℚ)/25, (140 : ℚ)) ≠ rawPos 1000 700 lmPinch := by
  norm_num [runFrames, processHand, drawOnCanvas, applySmoothing, drawCursor, startTransition,
    clearDrawingCanvas, fireDue, isFist, tipIdx, pinchDistSq, rawPos, lmPinch, lmPinch2,
    defaultSettings, initState, strokeColor, dotRadius, strokeWidth]

/-- Claim C2, amended: the full smoothing reset (buffer cleared, `lastSmoothed`
discarded, velocity zeroed) is performed by the debounced stroke-stop
callback; the stroke-start transition clears only the buffer, carrying
`lastSmoothed` and `velocity` over; and after a stroke-stop reset the very
next `smooth(x, y)` call returns exactly `(x, y)`. -/
theorem stopReset_independence (s : AppState) (level : ℕ) (x y : ℚ) (hlev : 1 ≤ level) :
    (stopCallback s).smooth.buffer = [] ∧
    (stopCallback s).smooth.lastSmoothed = none ∧
    (stopCallback s).smooth.velocity = ⟨0, 0⟩ ∧
    (startTransition s).smooth.buffer = [] ∧
    (startTransition s).smooth.lastSmoothed = s.smooth.lastSmoothed ∧
    (startTransition s).smooth.velocity = s.smooth.velocity ∧
    (applySmoothing level x y (stopCallback s).smooth).1 = ⟨x, y⟩ := by
  refine ⟨rfl, rfl, rfl, rfl, rfl, rfl, ?_⟩
  have hnl : ¬ level < 1 := by omega
  simp [stopCallback, applySmoothing, hnl]

/-- Claim C2 (amended), witness: the stop reset followed by a concrete
`smooth(7, 9)` call, which returns exactly `(7, 9)`. -/
theorem stopReset_independence_witness :
    (1 ≤ 5) ∧
    ((stopCallback initState).smooth.buffer = [] ∧
     (stopCallback initState).smooth.lastSmoothed = none ∧
     (stopCallback initState).smooth.velocity = ⟨0, 0⟩ ∧
     (startTransition initState).smooth.buffer = [] ∧
     (startTransition initState).smooth.lastSmoothed = initState.smooth.lastSmoothed ∧
     (startTransition initState).smooth.velocity = initState.smooth.velocity ∧
     (applySmoothing 5 7 9 (stopCallback initState).smooth).1 = ⟨7, 9⟩) :=
  ⟨by norm_num, stopReset_independence initState 5 7 9 (by norm_num)⟩

/-- Claim C3: the draw gesture (the frame handler branches on
`pinchDistSq < 1600`) holds iff the Euclidean pinch distance — thumb tip and
index tip mapped to canvas pixel space by `px = (1 - lm.x) * width`,
`py = lm.y * height` — is strictly below 40, and a computed distance of
exactly 40 is not a draw gesture. -/
theorem drawGesture_iff_distance_lt_40 (w h : ℚ) (lm : Landmarks) :
    (pinchDistSq w h lm < 1600 ↔ pinchDistance w h lm < 40) ∧
    (pinchDistance w h lm = 40 → ¬ pinchDistSq w h lm < 1600) := by
  have hiff : pinchDistSq w h lm < 1600 ↔ pinchDistance w h lm < 40 := by
    rw [pinchDistance, Real.sqrt_lt' (by norm_num : (0:ℝ) < 40)]
    rw [show ((40:ℝ) ^ 2) = ((1600 : ℚ) : ℝ) by norm_num]
    exact_mod_cast Iff.rfl
  refine ⟨hiff, fun heq hlt => ?_⟩
  have h40 : pinchDistance w h lm < 40 := hiff.mp hlt
  rw [heq] at h40
  exact lt_irrefl _ h40

/-- Claim C3, witness: a concrete hand whose computed pinch distance is
exactly 40 pixels on the 1000 × 700 canvas, and which is not a draw
gesture. -/
theorem drawGesture_boundary_witness :
    pinchDistance 1000 700 lmBoundary = 40 ∧ ¬ pinchDistSq 1000 700 lmBoundary < 1600 := by
  have hsq : pinchDistSq 1000 700 lmBoundary = 1600 := by
    norm_num [pinchDistSq, lmBoundary]
  have h40 : pinchDistance 1000 700 lmBoundary = 40 := by
    rw [pinchDistance, hsq, show (((1600:ℚ)):ℝ) = (40 : ℝ) ^ 2 by norm_num]
    exact Real.sqrt_sq (by norm_num)
  exact ⟨h40, (drawGesture_iff_distance_lt_40 1000 700 lmBoundary).2 h40⟩

/-- Claim C4: a landmark set classifies as a fist iff every fingertip (indices
8, 12, 16, 20) has y-coordinate at least the wrist's (index 0); and any single
fingertip strictly above the wrist defeats the classification. -/
theorem fist_iff (lm : Landmarks) :
    (isFist lm = true ↔ ∀ i ∈ tipIdx, (lm 0).y ≤ (lm i).y) ∧
    (∀ j ∈ tipIdx, (lm j).y < (lm 0).y → isFist lm = false) := by
  have main : isFist lm = true ↔ ∀ i ∈ tipIdx, (lm 0).y ≤ (lm i).y := by
    simp [isFist, List.all_eq_true, not_lt]
  refine ⟨main, fun j hj hlt => ?_⟩
  cases hf : isFist lm with
  | false => rfl
  | true => exact absurd (main.mp hf j hj) (not_le.mpr hlt)

/-- Claim C4, witness: a concrete all-fingertips-low hand classifies as a
fist, and a hand with the index fingertip above the wrist does not. -/
theorem fist_iff_witness :
    (∀ i ∈ tipIdx, (lmFist 0).y ≤ (lmFist i).y) ∧
    isFist lmFist = true ∧
    ((8 : ℕ) ∈ tipIdx ∧ (lmPinch 8).y < (lmPinch 0).y) ∧
    isFist lmPinch = false := by
  have hall : ∀ i ∈ tipIdx, (lmFist 0).y ≤ (lmFist i).y := by
    norm_num [tipIdx, lmFist, List.forall_mem_cons]
  have h8 : (lmPinch 8).y < (lmPinch 0).y := by
    norm_num [lmPinch]
  have hmem : (8 : ℕ) ∈ tipIdx := by simp [tipIdx]
  exact ⟨hall, (fist_iff lmFist).1.mpr hall, ⟨hmem, h8⟩, (fist_iff lmPinch).2 8 hmem h8⟩

lemma drawOnCanvas_cursor (st : Settings) (x y : ℚ) (s : AppState) :
    (drawOnCanvas st x y s).cursor = s.cursor := by
  cases hlp : s.lastPosition <;> by_cases hn : s.isNewStroke = true <;>
    by_cases hd : s.isDrawing = true <;>
      simp [drawOnCanvas, hlp, hn, hd]

lemma processHand_cursor (st : Settings) (w h : ℚ) (lm : Landmarks) (t : ℚ) (s : AppState) :
    (processHand st w h lm t s).cursor
      = drawCursor st ((1 - (lm 8).x) * w) ((lm 8).y * h) s.isDrawing := by
  by_cases hd : pinchDistSq w h lm < 1600 <;> by_cases hdr : s.isDrawing = true <;>
    by_cases hf : isFist lm = true <;>
      simp [processHand, startTransition, clearDrawingCanvas, drawOnCanvas_cursor, hd, hdr, hf]

/-- Claim C5 is a code bug, evaluated here: pinch at t = 0 ms starts a stroke,
an open hand at t = 10 ms schedules the stop timer for t = 40 ms, and a pinch
re-entry at t = 20 ms (within the 30 ms debounce window) leaves the timer
pending because the handler only cancels it in the not-yet-drawing branch; at
t = 40 ms the timer fires anyway, performing the `Drawing → Idle` transition
and the full smoothing/session reset that the debounce was meant to
suppress. -/
theorem debounce_reentry_bug :
    (runFrames defaultSettings 1000 700
        [(0, lmPinch), (10, lmOpen), (20, lmPinch)] initState).isDrawing = true ∧
    (runFrames defaultSettings 1000 700
        [(0, lmPinch), (10, lmOpen), (20, lmPinch)] initState).pendingStop = some 40 ∧
    (fireDue 40 (runFrames defaultSettings 1000 700
        [(0, lmPinch), (10, lmOpen), (20, lmPinch)] initState)).isDrawing = false ∧
    (fireDue 40 (runFrames defaultSettings 1000 700
        [(0, lmPinch), (10, lmOpen), (20, lmPinch)] initState)).smooth.lastSmoothed = none ∧
    (fireDue 40 (runFrames defaultSettings 1000 700
        [(0, lmPinch), (10, lmOpen), (20, lmPinch)] initState)).smooth.velocity = ⟨0, 0⟩ ∧
    (fireDue 40 (runFrames defaultSettings 1000 700
        [(0, lmPinch), (10, lmOpen), (20, lmPinch)] initState)).isNewStroke = true := by
  norm_num [runFrames, processHand, drawOnCanvas, applySmoothing, drawCursor, startTransition,
    clearDrawingCanvas, stopCallback, fireDue, isFist, tipIdx, pinchDistSq, lmPinch, lmOpen,
    defaultSettings, initState, strokeColor, dotRadius, strokeWidth]

/-- Claim C7: a fist frame clears the whole ink layer and forces a fresh
Idle/new-stroke session (drawing flag false, last committed point null,
new-stroke flag true, smoothing buffer emptied), regardless of the pinch
distance in that frame, overriding any drawing committed earlier in the
frame. -/
theorem fist_clears_frame (st : Settings) (w h : ℚ) (lm : Landmarks) (t : ℚ) (s : AppState)
    (hf : isFist lm = true) :
    (processHand st w h lm t s).ink = [] ∧
    (processHand st w h lm t s).isDrawing = false ∧
    (processHand st w h lm t s).lastPosition = none ∧
    (processHand st w h lm t s).isNewStroke = true ∧
    (processHand st w h lm t s).smooth.buffer = [] := by
  simp [processHand, clearDrawingCanvas, hf]

/-- Claim C7, witness: `lmFist` simultaneously satisfies the draw gesture
(pinch distance 0), and is applied to a state holding committed ink; the
fist still clears everything. -/
theorem fist_clears_frame_witness :
    isFist lmFist = true ∧
    pinchDistSq 1000 700 lmFist < 1600 ∧
    (runFrames defaultSettings 1000 700 [(0, lmPinch)] initState).ink ≠ [] ∧
    ((processHand defaultSettings 1000 700 lmFist 16
        (runFrames defaultSettings 1000 700 [(0, lmPinch)] initState)).ink = [] ∧
     (processHand defaultSettings 1000 700 lmFist 16
        (runFrames defaultSettings 1000 700 [(0, lmPinch)] initState)).isDrawing = false ∧
     (processHand defaultSettings 1000 700 lmFist 16
        (runFrames defaultSettings 1000 700 [(0, lmPinch)] initState)).lastPosition = none ∧
     (processHand defaultSettings 1000 700 lmFist 16
        (runFrames defaultSettings 1000 700 [(0, lmPinch)] initState)).isNewStroke = true ∧
     (processHand defaultSettings 1000 700 lmFist 16
        (runFrames defaultSettings 1000 700 [(0, lmPinch)] initState)).smooth.buffer = []) := by
  refine ⟨?_, ?_, ?_, fist_clears_frame defaultSettings 1000 700 lmFist 16 _ ?_⟩
  · norm_num [isFist, tipIdx, lmFist]
  · norm_num [pinchDistSq, lmFist]
  · norm_num [runFrames, processHand, drawOnCanvas, applySmoothing, drawCursor, startTransition,
      clearDrawingCanvas, fireDue, isFist, tipIdx, pinchDistSq, lmPinch, defaultSettings,
      initState, strokeColor, dotRadius, strokeWidth]
  · norm_num [isFist, tipIdx, lmFist]

/-- Claim C8: `clearAll` is idempotent — applied twice it yields a state
identical to applying it once — and clearing a layer is observably
independent of the layer's prior ink content. -/
theorem clearAll_idempotent (s : AppState) (l : List InkCmd) :
    clearDrawingCanvas (clearDrawingCanvas s) = clearDrawingCanvas s ∧
    clearDrawingCanvas { s with ink := l } = clearDrawingCanvas s :=
  ⟨rfl, rfl⟩

/-- Claim C9, counterexample: on the very first frame of a stroke (pinch from
Idle) the session enters `Drawing` and a dot is committed, yet the cursor
layer is *not* empty — `drawCursor` ran with the pre-transition drawing flag
(false) and painted the ring and center dot. -/
theorem cursor_first_frame_cx :
    (processHand defaultSettings 1000 700 lmPinch 0 initState).isDrawing = true ∧
    (processHand defaultSettings 1000 700 lmPinch 0 initState).ink ≠ [] ∧
    (processHand defaultSettings 1000 700 lmPinch 0 initState).cursor ≠ [] := by
  refine ⟨?_, ?_, ?_⟩ <;>
    norm_num [processHand, drawOnCanvas, applySmoothing, drawCursor, startTransition,
      clearDrawingCanvas, isFist, tipIdx, pinchDistSq, lmPinch, defaultSettings, initState,
      strokeColor, dotRadius, strokeWidth, white, cursorFillNormal] <;>
    exact List.cons_ne_nil _ _

/-- Claim C9, amended: each processed frame fully rebuilds the cursor layer
from the drawing-state flag *as it was at the start of the frame, before any
transition*: the layer is empty exactly when that flag was already true, and
otherwise shows the translucent ring (radius 15 normal, 20 eraser) plus the
small center dot at the tracked index fingertip; hence the cursor is still
shown on the first frame of a stroke and empty on every later frame of the
stroke. -/
theorem cursor_prestate_flag (st : Settings) (w h : ℚ) (lm : Landmarks) (t : ℚ) (s : AppState) :
    (processHand st w h lm t s).cursor
      = drawCursor st ((1 - (lm 8).x) * w) ((lm 8).y * h) s.isDrawing ∧
    (s.isDrawing = true → (processHand st w h lm t s).cursor = []) ∧
    (s.isDrawing = false → (processHand st w h lm t s).cursor =
      [ .ring ⟨(1 - (lm 8).x) * w, (lm 8).y * h⟩ (if st.eraserMode then 20 else 15)
          (if st.eraserMode then cursorFillEraser else cursorFillNormal)
        , .centerDot ⟨(1 - (lm 8).x) * w, (lm 8).y * h⟩ 3 white ]) := by
  refine ⟨processHand_cursor st w h lm t s, fun hdr => ?_, fun hdr => ?_⟩
  · rw [processHand_cursor, hdr]
    simp [drawCursor]
  · rw [processHand_cursor, hdr]
    simp [drawCursor]

/-- Claim C9 (amended), witness: an open-hand frame from Idle leaves the ring
and center dot at the fingertip position (500, 140). -/
theorem cursor_prestate_flag_witness :
    initState.isDrawing = false ∧
    (processHand defaultSettings 1000 700 lmOpen 0 initState).cursor =
      [ .ring ⟨500, 140⟩ 15 cursorFillNormal, .centerDot ⟨500, 140⟩ 3 white ] := by
  refine ⟨rfl, ?_⟩
  have h := (cursor_prestate_flag defaultSettings 1000 700 lmOpen 0 initState).2.2 rfl
  rw [h]
  norm_num [lmOpen, defaultSettings]

/-- A state mid-stroke with a stop timer pending for t = 40 ms (as after a
pinch-open frame at t = 10 ms). -/
def timerDemoState : AppState :=
  { initState with isDrawing := true
                   pendingStop := some 40
                   smooth := ⟨[⟨1, 1⟩], some ⟨1, 1⟩, ⟨2, 3⟩⟩ }

/-- Claim C10: every clear (fist gesture and the clear-canvas command both
call `clearDrawingCanvas`) forces the drawing flag false and empties the
smoothing buffer, but leaves `lastSmoothed`, the velocity and any pending
stop timer untouched; consequently a stroke started right after a clear can
carry residual momentum (here the first output lands at 15027/25 instead of
the raw 600), and a stop timer scheduled before the clear still fires
afterwards (completing the full stop reset). -/
theorem clear_keeps_momentum_and_timer :
    (∀ s : AppState,
        (clearDrawingCanvas s).isDrawing = false ∧
        (clearDrawingCanvas s).smooth.buffer = [] ∧
        (clearDrawingCanvas s).smooth.lastSmoothed = s.smooth.lastSmoothed ∧
        (clearDrawingCanvas s).smooth.velocity = s.smooth.velocity ∧
        (clearDrawingCanvas s).pendingStop = s.pendingStop) ∧
    ((clearDrawingCanvas (runFrames defaultSettings 1000 700
          [(0, lmPinch2), (16, lmPinch)] initState)).smooth.lastSmoothed = some ⟨547, 140⟩ ∧
     (clearDrawingCanvas (runFrames defaultSettings 1000 700
          [(0, lmPinch2), (16, lmPinch)] initState)).smooth.velocity = ⟨-15, 0⟩ ∧
     (processHand defaultSettings 1000 700 lmPinch2 32
        (clearDrawingCanvas (runFrames defaultSettings 1000 700
          [(0, lmPinch2), (16, lmPinch)] initState))).ink
        = [.dot ⟨15027/25, 140⟩ (5/2) white false] ∧
     ((15027 : ℚ)/25, (140 : ℚ)) ≠ rawPos 1000 700 lmPinch2) ∧
    ((clearDrawingCanvas timerDemoState).pendingStop = some 40 ∧
     (fireDue 50 (clearDrawingCanvas timerDemoState)).pendingStop = none ∧
     (fireDue 50 (clearDrawingCanvas timerDemoState)).smooth.lastSmoothed = none ∧
     (fireDue 50 (clearDrawingCanvas timerDemoState)).smooth.velocity = ⟨0, 0⟩) := by
  refine ⟨fun s => ⟨rfl, rfl, rfl, rfl, rfl⟩, ?_, ?_⟩
  · norm_num [runFrames, processHand, drawOnCanvas, applySmoothing, drawCursor, startTransition,
      clearDrawingCanvas, fireDue, isFist, tipIdx, pinchDistSq, rawPos, lmPinch, lmPinch2,
      defaultSettings, initState, strokeColor, dotRadius, strokeWidth]
  · norm_num [clearDrawingCanvas, fireDue, stopCallback, timerDemoState, initState]

lemma processHand_continue (st : Settings) (w h t : ℚ) (lm : Landmarks) (s : AppState) (p : Point)
    (hd : pinchDistSq w h lm < 1600) (hf : isFist lm = false)
    (hdr : s.isDrawing = true) (hnew : s.isNewStroke = false) (hlp : s.lastPosition = some p) :
    processHand st w h lm t s =
      { s with
        cursor := []
        smooth := (applySmoothing st.smoothingLevel ((1 - (lm 8).x) * w) ((lm 8).y * h) s.smooth).2
        ink := s.ink ++ [.line p
          (applySmoothing st.smoothingLevel ((1 - (lm 8).x) * w) ((lm 8).y * h) s.smooth).1
          (strokeWidth st) (strokeColor st) st.eraserMode]
        lastPosition := some
          (applySmoothing st.smoothingLevel ((1 - (lm 8).x) * w) ((lm 8).y * h) s.smooth).1 } := by
  simp [processHand, drawOnCanvas, drawCursor, hd, hf, hdr, hnew, hlp]

lemma processHand_start (st : Settings) (w h t : ℚ) (lm : Landmarks) (s : AppState)
    (hd : pinchDistSq w h lm < 1600) (hf : isFist lm = false) (hidle : s.isDrawing = false) :
    processHand st w h lm t s =
      { s with
        cursor := drawCursor st ((1 - (lm 8).x) * w) ((lm 8).y * h) false
        pendingStop := none
        isDrawing := true
        isNewStroke := false
        smooth := (applySmoothing st.smoothingLevel ((1 - (lm 8).x) * w) ((lm 8).y * h)
          { s.smooth with buffer := [] }).2
        ink := s.ink ++ [.dot
          (applySmoothing st.smoothingLevel ((1 - (lm 8).x) * w) ((lm 8).y * h)
            { s.smooth with buffer := [] }).1
          (dotRadius st) (strokeColor st) st.eraserMode]
        lastPosition := some
          (applySmoothing st.smoothingLevel ((1 - (lm 8).x) * w) ((lm 8).y * h)
            { s.smooth with buffer := [] }).1 } := by
  simp [processHand, drawOnCanvas, startTransition, hd, hf, hidle]

lemma runFrames_inStroke (st : Settings) (w h : ℚ) :
    ∀ (frames : List (ℚ × Landmarks)) (s : AppState) (p : Point),
      (∀ f ∈ frames, pinchDistSq w h f.2 < 1600 ∧ isFist f.2 = false) →
      s.isDrawing = true → s.isNewStroke = false → s.lastPosition = some p →
      s.pendingStop = none →
      (runFrames st w h frames s).ink =
        s.ink ++ lineCmds st (p :: (smoothRun st.smoothingLevel
          (frames.map (fun f => rawPos w h f.2)) s.smooth).1)
  | [], s, p, _, _, _, _, _ => by
      simp [runFrames, smoothRun, lineCmds]
  | (t, lm) :: rest, s, p, hall, hdr, hnew, hlp, hps => by
      have hhead := hall (t, lm) (by simp)
      have hfire : fireDue t s = s := by simp [fireDue, hps]
      have hstep := processHand_continue st w h t lm s p hhead.1 hhead.2 hdr hnew hlp
      rw [runFrames_cons, hfire, hstep]
      rw [runFrames_inStroke st w h rest
        { s with
          cursor := []
          smooth := (applySmoothing st.smoothingLevel ((1 - (lm 8).x) * w) ((lm 8).y * h) s.smooth).2
          ink := s.ink ++ [.line p
            (applySmoothing st.smoothingLevel ((1 - (lm 8).x) * w) ((lm 8).y * h) s.smooth).1
            (strokeWidth st) (strokeColor st) st.eraserMode]
          lastPosition := some
            (applySmoothing st.smoothingLevel ((1 - (lm 8).x) * w) ((lm 8).y * h) s.smooth).1 }
        ((applySmoothing st.smoothingLevel ((1 - (lm 8).x) * w) ((lm 8).y * h) s.smooth).1)
        (fun f hf => hall f (List.mem_cons_of_mem _ hf)) hdr hnew rfl hps]
      simp [smoothRun, rawPos, lineCmds]

/-- Claim C6: starting Idle (no pending stop timer), a pinching non-fist frame
followed by `N - 1` further pinching non-fist frames — `N` consecutive
`Drawing` frames with no intervening stop — appends to the ink layer exactly
the commands of `strokeCmds`: one dot at the first smoothed point followed by
the consecutive line segments, so one dot commit, `N - 1` line commits, with
the k-th segment joining the k-th and (k+1)-th smoothed outputs in order. -/
theorem stroke_continuity (st : Settings) (w h : ℚ) (t₀ : ℚ) (lm₀ : Landmarks)
    (frames : List (ℚ × Landmarks)) (s : AppState)
    (h₀d : pinchDistSq w h lm₀ < 1600) (h₀f : isFist lm₀ = false)
    (hall : ∀ f ∈ frames, pinchDistSq w h f.2 < 1600 ∧ isFist f.2 = false)
    (hidle : s.isDrawing = false) (hps : s.pendingStop = none) :
    (runFrames st w h ((t₀, lm₀) :: frames) s).ink =
      s.ink ++ strokeCmds st
        (smoothRun st.smoothingLevel (((t₀, lm₀) :: frames).map (fun f => rawPos w h f.2))
          { s.smooth with buffer := [] }).1 ∧
    (smoothRun st.smoothingLevel (((t₀, lm₀) :: frames).map (fun f => rawPos w h f.2))
      { s.smooth with buffer := [] }).1.length = frames.length + 1 ∧
    (strokeCmds st (smoothRun st.smoothingLevel
      (((t₀, lm₀) :: frames).map (fun f => rawPos w h f.2))
      { s.smooth with buffer := [] }).1).countP (fun c => c.isDot) = 1 ∧
    (strokeCmds st (smoothRun st.smoothingLevel
      (((t₀, lm₀) :: frames).map (fun f => rawPos w h f.2))
      { s.smooth with buffer := [] }).1).countP (fun c => c.isLine) = frames.length := by
  have hfire : fireDue t₀ s = s := by simp [fireDue, hps]
  have hstep := processHand_start st w h t₀ lm₀ s h₀d h₀f hidle
  refine ⟨?_, ?_, ?_, ?_⟩
  · rw [runFrames_cons, hfire, hstep]
    rw [runFrames_inStroke st w h frames
      { s with
        cursor := drawCursor st ((1 - (lm₀ 8).x) * w) ((lm₀ 8).y * h) false
        pendingStop := none
        isDrawing := true
        isNewStroke := false
        smooth := (applySmoothing st.smoothingLevel ((1 - (lm₀ 8).x) * w) ((lm₀ 8).y * h)
          { s.smooth with buffer := [] }).2
        ink := s.ink ++ [.dot
          (applySmoothing st.smoothingLevel ((1 - (lm₀ 8).x) * w) ((lm₀ 8).y * h)
            { s.smooth with buffer := [] }).1
          (dotRadius st) (strokeColor st) st.eraserMode]
        lastPosition := some
          (applySmoothing st.smoothingLevel ((1 - (lm₀ 8).x) * w) ((lm₀ 8).y * h)
            { s.smooth with buffer := [] }).1 }
      ((applySmoothing st.smoothingLevel ((1 - (lm₀ 8).x) * w) ((lm₀ 8).y * h)
        { s.smooth with buffer := [] }).1)
      hall rfl rfl rfl rfl]
    simp [smoothRun, rawPos, strokeCmds, lineCmds]
  · simp [smoothRun, rawPos, smoothRun_length]
  · have h := lineCmds_counts st
      ((applySmoothing st.smoothingLevel ((1 - (lm₀ 8).x) * w) ((lm₀ 8).y * h)
          { s.smooth with buffer := [] }).1 ::
        (smoothRun st.smoothingLevel (frames.map (fun f => rawPos w h f.2))
          (applySmoothing st.smoothingLevel ((1 - (lm₀ 8).x) * w) ((lm₀ 8).y * h)
            { s.smooth with buffer := [] }).2).1)
    simp [smoothRun, rawPos, strokeCmds, List.countP_cons, InkCmd.isDot, InkCmd.isLine] at h ⊢
    exact h.1
  · have h := lineCmds_counts st
      ((applySmoothing st.smoothingLevel ((1 - (lm₀ 8).x) * w) ((lm₀ 8).y * h)
          { s.smooth with buffer := [] }).1 ::
        (smoothRun st.smoothingLevel (frames.map (fun f => rawPos w h f.2))
          (applySmoothing st.smoothingLevel ((1 - (lm₀ 8).x) * w) ((lm₀ 8).y * h)
            { s.smooth with buffer := [] }).2).1)
    simp [smoothRun, rawPos, strokeCmds, List.countP_cons, InkCmd.isDot, InkCmd.isLine,
      smoothRun_length] at h ⊢
    exact h.2

/-- Claim C6, witness: a two-frame stroke (pinch at t = 0 and t = 16) from the
initial state commits exactly one dot and one line segment along the two
smoothed points. -/
theorem stroke_continuity_witness :
    (pinchDistSq 1000 700 lmPinch < 1600 ∧ isFist lmPinch = false ∧
     (∀ f ∈ [((16 : ℚ), lmPinch2)], pinchDistSq 1000 700 f.2 < 1600 ∧ isFist f.2 = false) ∧
     initState.isDrawing = false ∧ initState.pendingStop = none) ∧
    ((runFrames defaultSettings 1000 700 (((0 : ℚ), lmPinch) :: [((16 : ℚ), lmPinch2)]) initState).ink =
      initState.ink ++ strokeCmds defaultSettings
        (smoothRun defaultSettings.smoothingLevel
          ((((0 : ℚ), lmPinch) :: [((16 : ℚ), lmPinch2)]).map (fun f => rawPos 1000 700 f.2))
          { initState.smooth with buffer := [] }).1 ∧
     (smoothRun defaultSettings.smoothingLevel
        ((((0 : ℚ), lmPinch) :: [((16 : ℚ), lmPinch2)]).map (fun f => rawPos 1000 700 f.2))
        { initState.smooth with buffer := [] }).1.length = [((16 : ℚ), lmPinch2)].length + 1 ∧
     (strokeCmds defaultSettings (smoothRun defaultSettings.smoothingLevel
        ((((0 : ℚ), lmPinch) :: [((16 : ℚ), lmPinch2)]).map (fun f => rawPos 1000 700 f.2))
        { initState.smooth with buffer := [] }).1).countP (fun c => c.isDot) = 1 ∧
     (strokeCmds defaultSettings (smoothRun defaultSettings.smoothingLevel
        ((((0 : ℚ), lmPinch) :: [((16 : ℚ), lmPinch2)]).map (fun f => rawPos 1000 700 f.2))
        { initState.smooth with buffer := [] }).1).countP (fun c => c.isLine)
        = [((16 : ℚ), lmPinch2)].length) :=
  ⟨⟨by norm_num [pinchDistSq, lmPinch], by norm_num [isFist, tipIdx, lmPinch],
    by norm_num [List.forall_mem_cons, pinchDistSq, isFist, tipIdx, lmPinch2], rfl, rfl⟩,
   stroke_continuity defaultSettings 1000 700 0 lmPinch [((16 : ℚ), lmPinch2)] initState
     (by norm_num [pinchDistSq, lmPinch])
     (by norm_num [isFist, tipIdx, lmPinch])
     (by norm_num [List.forall_mem_cons, pinchDistSq, isFist, tipIdx, lmPinch2])
     rfl rfl⟩

end HandWhiteboard
